import Mathlib

set_option allowUnsafeReducibility true in
attribute [semireducible] Rat.add

set_option allowUnsafeReducibility true in
attribute [semireducible] Rat.sub

set_option allowUnsafeReducibility true in
attribute [semireducible] Rat.mul

set_option allowUnsafeReducibility true in
attribute [semireducible] Rat.inv

/-!
Verification of the loan-repayment-vs-investment analyzer.

The program's monetary arithmetic uses Python `Decimal`: exact decimal values with
explicit quantization to cents at the two points where the source quantizes
(input entry, with the default `ROUND_HALF_EVEN`, and the monthly loan interest,
with `ROUND_HALF_UP`).  We embed `Decimal` values as rationals and the two
quantization operations explicitly; a Python exception (division by zero in
`calculate_minimum_loan_payment`) is embedded as `none`.
-/

/-- Round a rational to the nearest integer with ties away from zero
(Python `decimal.ROUND_HALF_UP`). -/
def roundHalfUp (q : ℚ) : ℤ :=
  if 0 ≤ q then (q + 1 / 2).floor else (q - 1 / 2).ceil

/-- Round a rational to the nearest integer with ties to the even neighbour
(Python `decimal`'s default rounding, `ROUND_HALF_EVEN`). -/
def roundHalfEven (q : ℚ) : ℤ :=
  let f := q.floor
  if q - f < 1 / 2 then f
  else if 1 / 2 < q - f then f + 1
  else if f % 2 = 0 then f else f + 1

/-- `x.quantize(Decimal("0.01"), rounding=ROUND_HALF_UP)`. -/
def quantizeHalfUp (q : ℚ) : ℚ := (roundHalfUp (100 * q) : ℚ) / 100

/-- `x.quantize(Decimal("0.01"))` (default context rounding, `ROUND_HALF_EVEN`). -/
def quantizeHalfEven (q : ℚ) : ℚ := (roundHalfEven (100 * q) : ℚ) / 100

/-- A quantity that is a whole number of cents (already quantized), as the
data model prescribes for all monetary inputs. -/
abbrev IsCents (q : ℚ) : Prop := quantizeHalfEven q = q

/-- The six scalar inputs of `calculate_financials`. -/
structure SimInputs where
  loan_amount : ℚ
  loan_rate : ℚ
  investment_rate : ℚ
  total_monthly_payment : ℚ
  monthly_loan_payment : ℚ
  years : ℕ
  deriving DecidableEq

/-- `Decimal(loan_amount).quantize(Decimal("0.01"))`. -/
def qA (ip : SimInputs) : ℚ := quantizeHalfEven ip.loan_amount

/-- `Decimal(total_monthly_payment).quantize(Decimal("0.01"))`. -/
def qB (ip : SimInputs) : ℚ := quantizeHalfEven ip.total_monthly_payment

/-- `Decimal(monthly_loan_payment).quantize(Decimal("0.01"))`. -/
def qP (ip : SimInputs) : ℚ := quantizeHalfEven ip.monthly_loan_payment

/-- The running state of the month loop of `calculate_financials`. -/
structure SimState where
  loan_balance : ℚ
  investment_balance : ℚ
  monthly_investment_payment : ℚ
  total_interest_paid : ℚ
  total_principal_paid : ℚ
  total_invested : ℚ
  loan_paid_off : Bool
  deriving DecidableEq

/-- State on entry to the month loop of `calculate_financials`. -/
def initState (ip : SimInputs) : SimState :=
  { loan_balance := qA ip
    investment_balance := 0
    monthly_investment_payment := qB ip - qP ip
    total_interest_paid := 0
    total_principal_paid := 0
    total_invested := 0
    loan_paid_off := false }

/-- One iteration of the month loop of `calculate_financials`: investment growth
and contribution first, then the loan section guarded by `loan_balance > 0`. -/
def simStep (ip : SimInputs) (s : SimState) : SimState :=
  let inv1 := s.investment_balance * (1 + ip.investment_rate / 12) +
    s.monthly_investment_payment
  let tinv1 := s.total_invested + s.monthly_investment_payment
  if 0 < s.loan_balance then
    let interest := quantizeHalfUp (s.loan_balance * (ip.loan_rate / 12))
    let ti1 := s.total_interest_paid + interest
    if s.loan_paid_off = false then
      let principal_payment := qP ip - interest
      if s.loan_balance ≤ principal_payment then
        let overpayment := qP ip - (s.loan_balance + interest)
        { loan_balance := 0
          investment_balance := inv1 + overpayment
          monthly_investment_payment := qB ip
          total_interest_paid := ti1
          total_principal_paid := s.total_principal_paid + s.loan_balance
          total_invested := tinv1 + overpayment
          loan_paid_off := true }
      else
        { loan_balance := s.loan_balance - principal_payment
          investment_balance := inv1
          monthly_investment_payment := s.monthly_investment_payment
          total_interest_paid := ti1
          total_principal_paid := s.total_principal_paid + principal_payment
          total_invested := tinv1
          loan_paid_off := false }
    else
      { s with
        investment_balance := inv1
        total_invested := tinv1
        total_interest_paid := ti1
        monthly_investment_payment := qB ip }
  else
    { s with investment_balance := inv1, total_invested := tinv1 }

/-- State after the first `n` months of the loop. -/
def stateAfter (ip : SimInputs) : ℕ → SimState
  | 0 => initState ip
  | n + 1 => simStep ip (stateAfter ip n)

/-- One row of the `data` list: the loan balance is stored negated for display. -/
structure MonthRecord where
  month : ℕ
  loan_balance_display : ℚ
  investment_portfolio : ℚ
  net_worth : ℚ
  deriving DecidableEq

/-- The record appended at the end of month `m` (1-based). -/
def monthRecord (ip : SimInputs) (m : ℕ) : MonthRecord :=
  let s := stateAfter ip m
  { month := m
    loan_balance_display := -s.loan_balance
    investment_portfolio := s.investment_balance
    net_worth := s.investment_balance - s.loan_balance }

/-- The tuple returned by `calculate_financials`. -/
structure SimResult where
  df : List MonthRecord
  total_principal_paid : ℚ
  total_interest_paid : ℚ
  total_invested : ℚ
  investment_gains : ℚ
  final_net_worth : ℚ
  deriving DecidableEq

/-- `calculate_financials`: run the month loop for `years * 12` months and
assemble the data frame together with the aggregate totals. -/
def calculate_financials (ip : SimInputs) : SimResult :=
  let n := ip.years * 12
  let s := stateAfter ip n
  { df := (List.range n).map (fun m => monthRecord ip (m + 1))
    total_principal_paid := s.total_principal_paid
    total_interest_paid := s.total_interest_paid
    total_invested := s.total_invested
    investment_gains := s.investment_balance - s.total_invested
    final_net_worth := s.investment_balance - s.loan_balance }

/-- `calculate_minimum_loan_payment`.  A `none` result models a Python
`ZeroDivisionError`/`DivisionByZero` exception: the `loan_rate == 0` branch
divides by `years * 12` with no zero guard, and the amortization formula
divides by `(1 + r)^n - 1`. -/
def calculate_minimum_loan_payment (loan_amount loan_rate : ℚ) (years : ℕ) :
    Option ℚ :=
  if loan_rate = 0 then
    if years * 12 = 0 then none
    else some (loan_amount / ((years : ℚ) * 12))
  else
    let monthly_rate := loan_rate / 12
    let num_payments := years * 12
    if num_payments = 0 then some loan_amount
    else
      let denom := (1 + monthly_rate) ^ num_payments - 1
      if denom = 0 then none
      else
        some (quantizeHalfUp
          (loan_amount * (monthly_rate * (1 + monthly_rate) ^ num_payments) / denom))

/-- Number of elements of `np.arange(start, stop, step)` for a positive `step`
(and `0` for a negative one): `⌈(stop - start) / step⌉` clamped at `0`. -/
def candidateCount (start stop step : ℚ) : ℕ := (⌈(stop - start) / step⌉).toNat

/-- The candidate allocations `np.arange(min_loan_payment, total + 1, step)`
swept by the optimizer: `start + k * step` for `k < candidateCount`. -/
def candidateList (start stop step : ℚ) : List ℚ :=
  (List.range (candidateCount start stop step)).map
    (fun k : ℕ => start + (k : ℚ) * step)

/-- The optimizer's accumulator: `best_net_worth` starts at `-np.inf`,
modelled by `⊥ : WithBot ℚ`. -/
structure OptState where
  best_net_worth : WithBot ℚ
  sweet_spot_allocation : ℚ
  deriving DecidableEq

/-- `final_net_worth` of the simulation run for one candidate allocation. -/
def netAt (loan_amount loan_rate investment_rate total_monthly_payment : ℚ)
    (years : ℕ) (c : ℚ) : ℚ :=
  (calculate_financials
    ⟨loan_amount, loan_rate, investment_rate, total_monthly_payment, c, years⟩).final_net_worth

/-- One iteration of the optimizer sweep: keep the candidate iff its net worth
is strictly greater than the best seen so far. -/
def sweepStep (loan_amount loan_rate investment_rate total_monthly_payment : ℚ)
    (years : ℕ) (s : OptState) (c : ℚ) : OptState :=
  let final_net := netAt loan_amount loan_rate investment_rate
    total_monthly_payment years c
  if s.best_net_worth < (final_net : WithBot ℚ) then
    { best_net_worth := (final_net : WithBot ℚ), sweet_spot_allocation := c }
  else s

/-- The optimizer sweep from a given minimum payment (the loop body shared
verbatim by the first-load sweep and the "Find Optimal Split" button). -/
def runSweep (loan_amount loan_rate investment_rate total_monthly_payment : ℚ)
    (years : ℕ) (step minp : ℚ) : OptState :=
  (candidateList minp (total_monthly_payment + 1) step).foldl
    (sweepStep loan_amount loan_rate investment_rate total_monthly_payment years)
    ⟨⊥, minp⟩

/-- The whole optimizer: compute the minimum payment, then sweep candidates
from it up to (but excluding) `total_monthly_payment + 1`. -/
def findOptimalAllocation (loan_amount loan_rate investment_rate
    total_monthly_payment : ℚ) (years : ℕ) (step : ℚ) : Option OptState :=
  (calculate_minimum_loan_payment loan_amount loan_rate years).map
    (fun minp => runSweep loan_amount loan_rate investment_rate
      total_monthly_payment years step minp)

/-- The loan-side projection of the simulation state (the loan recurrence does
not depend on the investment side; used to evaluate long horizons). -/
structure LoanState where
  bal : ℚ
  paid : Bool
  deriving DecidableEq

/-- Loan-side projection of `simStep`. -/
def loanStep (ip : SimInputs) (s : LoanState) : LoanState :=
  if 0 < s.bal then
    let interest := quantizeHalfUp (s.bal * (ip.loan_rate / 12))
    if s.paid = false then
      let principal_payment := qP ip - interest
      if s.bal ≤ principal_payment then ⟨0, true⟩
      else ⟨s.bal - principal_payment, false⟩
    else s
  else s

/-- Iterated `loanStep`, with an explicit start state so that long horizons can
be evaluated in segments. -/
def loanIter (ip : SimInputs) : ℕ → LoanState → LoanState
  | 0, s => s
  | n + 1, s => loanIter ip n (loanStep ip s)

/-- Geometric sum `1 + (1+g) + ... + (1+g)^(m-1)`: the factor by which a
constant monthly contribution is amplified after `m` months of growth. -/
def geomSum (g : ℚ) : ℕ → ℚ
  | 0 => 0
  | m + 1 => 1 + (1 + g) * geomSum g m

/-- `a` is the first element of `l` attaining the greatest value of `f`:
everything before it is strictly smaller, everything after it no greater. -/
def FirstArgmax (f : ℚ → ℚ) (l : List ℚ) (a : ℚ) : Prop :=
  ∃ l1 l2, l = l1 ++ a :: l2 ∧ (∀ c ∈ l1, f c < f a) ∧ (∀ c ∈ l2, f c ≤ f a)

/-- Modelled from the claim's wording (C1): the investment contribution of a
month is `totalMonthlyBudget - monthlyLoanPayment` before payoff and the full
`totalMonthlyBudget` after payoff. -/
def C1Contribution (ip : SimInputs) (s : SimState) : ℚ :=
  if s.loan_paid_off then ip.total_monthly_payment
  else ip.total_monthly_payment - ip.monthly_loan_payment

/-- Modelled from the claim's wording (C1): the month transition as the claim
describes it — growth then contribution, interest accumulation while the
balance is positive, payoff with overpayment diverted to the investment, and
otherwise a balance decrease by `monthlyLoanPayment - interest`. -/
def C1StepClaim (ip : SimInputs) (s s' : SimState) : Prop :=
  let grown := s.investment_balance * (1 + ip.investment_rate / 12) +
    C1Contribution ip s
  let interest := quantizeHalfUp (s.loan_balance * (ip.loan_rate / 12))
  if 0 < s.loan_balance then
    s'.total_interest_paid = s.total_interest_paid + interest ∧
    (if s.loan_balance ≤ ip.monthly_loan_payment - interest then
      s'.total_principal_paid = s.total_principal_paid + s.loan_balance ∧
      s'.loan_balance = 0 ∧
      s'.investment_balance = grown +
        (ip.monthly_loan_payment - (s.loan_balance + interest)) ∧
      s'.total_invested = s.total_invested + C1Contribution ip s +
        (ip.monthly_loan_payment - (s.loan_balance + interest))
    else
      s'.loan_balance = s.loan_balance - (ip.monthly_loan_payment - interest) ∧
      s'.investment_balance = grown ∧
      s'.total_invested = s.total_invested + C1Contribution ip s ∧
      s'.total_principal_paid = s.total_principal_paid +
        (ip.monthly_loan_payment - interest))
  else
    s'.loan_balance = s.loan_balance ∧
    s'.investment_balance = grown ∧
    s'.total_invested = s.total_invested + C1Contribution ip s ∧
    s'.total_interest_paid = s.total_interest_paid ∧
    s'.total_principal_paid = s.total_principal_paid

/-! ### Structural lemmas about the simulation loop -/

theorem stateAfter_succ (ip : SimInputs) (n : ℕ) :
    stateAfter ip (n + 1) = simStep ip (stateAfter ip n) := rfl

/-- `simStep`, payoff branch. -/
theorem simStep_payoff (ip : SimInputs) (s : SimState)
    (hbal : 0 < s.loan_balance) (hpaid : s.loan_paid_off = false)
    (hpay : s.loan_balance ≤
      qP ip - quantizeHalfUp (s.loan_balance * (ip.loan_rate / 12))) :
    simStep ip s =
      { loan_balance := 0
        investment_balance :=
          s.investment_balance * (1 + ip.investment_rate / 12) +
            s.monthly_investment_payment +
            (qP ip - (s.loan_balance +
              quantizeHalfUp (s.loan_balance * (ip.loan_rate / 12))))
        monthly_investment_payment := qB ip
        total_interest_paid := s.total_interest_paid +
          quantizeHalfUp (s.loan_balance * (ip.loan_rate / 12))
        total_principal_paid := s.total_principal_paid + s.loan_balance
        total_invested := s.total_invested + s.monthly_investment_payment +
          (qP ip - (s.loan_balance +
            quantizeHalfUp (s.loan_balance * (ip.loan_rate / 12))))
        loan_paid_off := true } := by
  simp [simStep, hbal, hpaid, hpay]

/-- `simStep`, regular amortization branch. -/
theorem simStep_regular (ip : SimInputs) (s : SimState)
    (hbal : 0 < s.loan_balance) (hpaid : s.loan_paid_off = false)
    (hpay : ¬ s.loan_balance ≤
      qP ip - quantizeHalfUp (s.loan_balance * (ip.loan_rate / 12))) :
    simStep ip s =
      { loan_balance := s.loan_balance -
          (qP ip - quantizeHalfUp (s.loan_balance * (ip.loan_rate / 12)))
        investment_balance :=
          s.investment_balance * (1 + ip.investment_rate / 12) +
            s.monthly_investment_payment
        monthly_investment_payment := s.monthly_investment_payment
        total_interest_paid := s.total_interest_paid +
          quantizeHalfUp (s.loan_balance * (ip.loan_rate / 12))
        total_principal_paid := s.total_principal_paid +
          (qP ip - quantizeHalfUp (s.loan_balance * (ip.loan_rate / 12)))
        total_invested := s.total_invested + s.monthly_investment_payment
        loan_paid_off := false } := by
  simp [simStep, hbal, hpaid, hpay]

/-- `simStep`, defensive branch (balance positive but already marked paid). -/
theorem simStep_defensive (ip : SimInputs) (s : SimState)
    (hbal : 0 < s.loan_balance) (hpaid : s.loan_paid_off = true) :
    simStep ip s =
      { s with
        investment_balance :=
          s.investment_balance * (1 + ip.investment_rate / 12) +
            s.monthly_investment_payment
        total_invested := s.total_invested + s.monthly_investment_payment
        total_interest_paid := s.total_interest_paid +
          quantizeHalfUp (s.loan_balance * (ip.loan_rate / 12))
        monthly_investment_payment := qB ip } := by
  simp [simStep, hbal, hpaid]

/-- `simStep`, no-loan branch (balance not positive). -/
theorem simStep_noloan (ip : SimInputs) (s : SimState)
    (hbal : ¬ 0 < s.loan_balance) :
    simStep ip s =
      { s with
        investment_balance :=
          s.investment_balance * (1 + ip.investment_rate / 12) +
            s.monthly_investment_payment
        total_invested := s.total_invested + s.monthly_investment_payment } := by
  simp [simStep, hbal]

/-- Run-time invariants of the month loop: once `loan_paid_off` is set the
balance is exactly `0`, and the contribution field is `qB - qP` before payoff
and `qB` afterwards. -/
theorem simInv (ip : SimInputs) (n : ℕ) :
    ((stateAfter ip n).loan_paid_off = true → (stateAfter ip n).loan_balance = 0) ∧
    (stateAfter ip n).monthly_investment_payment =
      (if (stateAfter ip n).loan_paid_off then qB ip else qB ip - qP ip) := by
  induction n with
  | zero => simp [stateAfter, initState]
  | succ n ih =>
    obtain ⟨h1, h2⟩ := ih
    rw [stateAfter_succ]
    by_cases hbal : 0 < (stateAfter ip n).loan_balance
    · cases hpaid : (stateAfter ip n).loan_paid_off with
      | true =>
        rw [h1 hpaid] at hbal
        exact absurd hbal (by norm_num)
      | false =>
        by_cases hpay : (stateAfter ip n).loan_balance ≤
            qP ip - quantizeHalfUp ((stateAfter ip n).loan_balance * (ip.loan_rate / 12))
        · rw [simStep_payoff ip _ hbal hpaid hpay]
          simp
        · rw [simStep_regular ip _ hbal hpaid hpay]
          rw [h2, hpaid] at *
          simp
    · rw [simStep_noloan ip _ hbal]
      simpa using ⟨h1, h2⟩

/-- Principal conservation: paid principal plus the outstanding balance is the
(entry-quantized) loan amount, in every month. -/
theorem conservation (ip : SimInputs) (n : ℕ) :
    (stateAfter ip n).total_principal_paid + (stateAfter ip n).loan_balance = qA ip := by
  induction n with
  | zero => simp [stateAfter, initState]
  | succ n ih =>
    rw [stateAfter_succ]
    by_cases hbal : 0 < (stateAfter ip n).loan_balance
    · cases hpaid : (stateAfter ip n).loan_paid_off with
      | true =>
        rw [simStep_defensive ip _ hbal hpaid]
        simpa using ih
      | false =>
        by_cases hpay : (stateAfter ip n).loan_balance ≤
            qP ip - quantizeHalfUp ((stateAfter ip n).loan_balance * (ip.loan_rate / 12))
        · rw [simStep_payoff ip _ hbal hpaid hpay]
          simp only
          linarith [ih]
        · rw [simStep_regular ip _ hbal hpaid hpay]
          simp only
          linarith [ih]
    · rw [simStep_noloan ip _ hbal]
      simpa using ih

/-- Once the loan is marked paid off, the flag, the zero balance and the
full-budget contribution persist for all later months. -/
theorem paidOff_stable (ip : SimInputs) (m k : ℕ) (hmk : m ≤ k)
    (hm : (stateAfter ip m).loan_paid_off = true) :
    (stateAfter ip k).loan_paid_off = true ∧
    (stateAfter ip k).loan_balance = 0 ∧
    (stateAfter ip k).monthly_investment_payment = qB ip := by
  induction k, hmk using Nat.le_induction with
  | base =>
    obtain ⟨h1, h2⟩ := simInv ip m
    refine ⟨hm, h1 hm, ?_⟩
    rw [h2, hm]
    simp
  | succ k hmk ih =>
    obtain ⟨hp, hb, hc⟩ := ih
    rw [stateAfter_succ, simStep_noloan ip _ (by rw [hb]; norm_num)]
    exact ⟨hp, hb, hc⟩

theorem loanIter_add (ip : SimInputs) (a b : ℕ) (s : LoanState) :
    loanIter ip (a + b) s = loanIter ip b (loanIter ip a s) := by
  induction a generalizing s with
  | zero => simp [loanIter]
  | succ a ih =>
    have h : a + 1 + b = (a + b) + 1 := by omega
    rw [h]
    show loanIter ip (a + b) (loanStep ip s) = _
    rw [ih]
    rfl

theorem loanIter_succ_back (ip : SimInputs) (n : ℕ) (s : LoanState) :
    loanIter ip (n + 1) s = loanStep ip (loanIter ip n s) := by
  rw [loanIter_add ip n 1 s]
  rfl

/-- The loan side of one month depends only on the loan side of the state. -/
theorem simStep_loan_proj (ip : SimInputs) (s : SimState) :
    (simStep ip s).loan_balance = (loanStep ip ⟨s.loan_balance, s.loan_paid_off⟩).bal ∧
    (simStep ip s).loan_paid_off = (loanStep ip ⟨s.loan_balance, s.loan_paid_off⟩).paid := by
  by_cases hbal : 0 < s.loan_balance
  · cases hpaid : s.loan_paid_off with
    | true =>
      rw [simStep_defensive ip s hbal hpaid]
      simp [loanStep, hbal, hpaid]
    | false =>
      by_cases hpay : s.loan_balance ≤
          qP ip - quantizeHalfUp (s.loan_balance * (ip.loan_rate / 12))
      · rw [simStep_payoff ip s hbal hpaid hpay]
        simp [loanStep, hbal, hpaid, hpay]
      · rw [simStep_regular ip s hbal hpaid hpay]
        simp [loanStep, hbal, hpaid, hpay]
  · rw [simStep_noloan ip s hbal]
    simp [loanStep, hbal]

/-- The loan balance and payoff flag of the full simulation coincide with the
loan-only recurrence. -/
theorem stateAfter_loan_proj (ip : SimInputs) (n : ℕ) :
    (stateAfter ip n).loan_balance = (loanIter ip n ⟨qA ip, false⟩).bal ∧
    (stateAfter ip n).loan_paid_off = (loanIter ip n ⟨qA ip, false⟩).paid := by
  induction n with
  | zero => simp [stateAfter, initState, loanIter]
  | succ n ih =>
    obtain ⟨hb, hp⟩ := ih
    obtain ⟨sb, sp⟩ := simStep_loan_proj ip (stateAfter ip n)
    rw [stateAfter_succ, loanIter_succ_back]
    rw [hb, hp] at sb sp
    exact ⟨sb, sp⟩

/-! ### Claim theorems -/

/-- C9: the defensive else branch of the loan step is unreachable.  Whenever
`loan_paid_off` holds in a reachable state, the balance is exactly `0`, so the
outer `loan_balance > 0` guard fails and the month executes the loan-skipping
branch (the defensive branch, which would force the contribution to the full
budget, is never taken). -/
theorem c9_defensive_branch_unreachable (ip : SimInputs) (n : ℕ)
    (hpaid : (stateAfter ip n).loan_paid_off = true) :
    (stateAfter ip n).loan_balance = 0 ∧
    ¬ 0 < (stateAfter ip n).loan_balance ∧
    simStep ip (stateAfter ip n) =
      { stateAfter ip n with
        investment_balance :=
          (stateAfter ip n).investment_balance * (1 + ip.investment_rate / 12) +
            (stateAfter ip n).monthly_investment_payment
        total_invested := (stateAfter ip n).total_invested +
          (stateAfter ip n).monthly_investment_payment } := by
  obtain ⟨h1, -⟩ := simInv ip n
  have hb : (stateAfter ip n).loan_balance = 0 := h1 hpaid
  have hnb : ¬ 0 < (stateAfter ip n).loan_balance := by rw [hb]; norm_num
  exact ⟨hb, hnb, simStep_noloan ip _ hnb⟩

/-- C9 witness: a run that pays off in month 1 and stays in the no-loan branch. -/
theorem c9_defensive_branch_unreachable_witness :
    (stateAfter ⟨100, 0, 0, 200, 100, 1⟩ 1).loan_paid_off = true ∧
    (stateAfter ⟨100, 0, 0, 200, 100, 1⟩ 1).loan_balance = 0 := by
  refine ⟨by decide, ?_⟩
  exact (c9_defensive_branch_unreachable ⟨100, 0, 0, 200, 100, 1⟩ 1 (by decide)).1

/-- C4: month-by-month principal conservation.  Every month's ending balance is
the starting balance minus that month's principal, and at horizon end the
total principal paid plus the outstanding balance equals the loan amount
(so total principal equals the loan amount exactly when the loan is paid off). -/
theorem c4_conservation (ip : SimInputs) (hA : IsCents ip.loan_amount) :
    (∀ m : ℕ,
      (stateAfter ip (m + 1)).loan_balance =
        (stateAfter ip m).loan_balance -
          ((stateAfter ip (m + 1)).total_principal_paid -
            (stateAfter ip m).total_principal_paid)) ∧
    ((stateAfter ip (ip.years * 12)).loan_paid_off = false →
      (stateAfter ip (ip.years * 12)).total_principal_paid +
        (stateAfter ip (ip.years * 12)).loan_balance = ip.loan_amount) ∧
    ((stateAfter ip (ip.years * 12)).loan_paid_off = true →
      (stateAfter ip (ip.years * 12)).total_principal_paid = ip.loan_amount) := by
  have hqA : qA ip = ip.loan_amount := hA
  refine ⟨?_, ?_, ?_⟩
  · intro m
    have h1 := conservation ip m
    have h2 := conservation ip (m + 1)
    linarith
  · intro _
    rw [← hqA]
    exact conservation ip (ip.years * 12)
  · intro hpaid
    obtain ⟨h1, -⟩ := simInv ip (ip.years * 12)
    have hb := h1 hpaid
    have hc := conservation ip (ip.years * 12)
    rw [hb] at hc
    rw [← hqA]
    linarith

/-- C4 witness: conservation on a concrete run. -/
theorem c4_conservation_witness :
    IsCents ((⟨1000, 1/10, 0, 200, 100, 1⟩ : SimInputs).loan_amount) ∧
    (stateAfter ⟨1000, 1/10, 0, 200, 100, 1⟩ 1).loan_balance =
      (stateAfter ⟨1000, 1/10, 0, 200, 100, 1⟩ 0).loan_balance -
        ((stateAfter ⟨1000, 1/10, 0, 200, 100, 1⟩ 1).total_principal_paid -
          (stateAfter ⟨1000, 1/10, 0, 200, 100, 1⟩ 0).total_principal_paid) := by
  refine ⟨by decide, ?_⟩
  exact (c4_conservation ⟨1000, 1/10, 0, 200, 100, 1⟩ (by decide)).1 0

/-- C5 counterexample: with a zero loan amount the very first record already
reports a balance of exactly `0.00`, yet the monthly investment contribution
stays at `totalMonthlyBudget - monthlyLoanPayment = 50`, never becoming the
full budget `100`; after two months only `100` (not `150`) has been invested. -/
theorem c5_counterexample :
    (monthRecord ⟨0, 0, 0, 100, 50, 1⟩ 1).loan_balance_display = 0 ∧
    (stateAfter ⟨0, 0, 0, 100, 50, 1⟩ 1).monthly_investment_payment ≠
      (⟨0, 0, 0, 100, 50, 1⟩ : SimInputs).total_monthly_payment ∧
    (stateAfter ⟨0, 0, 0, 100, 50, 1⟩ 2).investment_balance = 100 := by
  refine ⟨by decide, by decide, by decide⟩

/-- C5 (amended): once the payoff branch has run (`loan_paid_off` set), every
later record reports a balance of exactly `0.00` and the full
`totalMonthlyBudget` is the monthly investment contribution. -/
theorem c5_after_payoff (ip : SimInputs)
    (hB : IsCents ip.total_monthly_payment) (m k : ℕ)
    (hm : (stateAfter ip m).loan_paid_off = true) (hmk : m ≤ k) :
    (monthRecord ip k).loan_balance_display = 0 ∧
    (stateAfter ip k).loan_balance = 0 ∧
    (stateAfter ip k).monthly_investment_payment = ip.total_monthly_payment := by
  obtain ⟨hp, hb, hc⟩ := paidOff_stable ip m k hmk hm
  refine ⟨?_, hb, ?_⟩
  · simp [monthRecord, hb]
  · rw [hc]
    exact hB

/-- C5 witness: payoff in month 1, checked at month 7. -/
theorem c5_after_payoff_witness :
    IsCents ((⟨100, 0, 0, 200, 100, 1⟩ : SimInputs).total_monthly_payment) ∧
    (stateAfter ⟨100, 0, 0, 200, 100, 1⟩ 1).loan_paid_off = true ∧
    (monthRecord ⟨100, 0, 0, 200, 100, 1⟩ 7).loan_balance_display = 0 ∧
    (stateAfter ⟨100, 0, 0, 200, 100, 1⟩ 7).monthly_investment_payment =
      (⟨100, 0, 0, 200, 100, 1⟩ : SimInputs).total_monthly_payment := by
  have h := c5_after_payoff ⟨100, 0, 0, 200, 100, 1⟩ (by decide) 1 7 (by decide)
    (by omega)
  exact ⟨by decide, by decide, h.1, h.2.2⟩

/-- C10: the payoff guard `loanBalance ≤ monthlyLoanPayment - interest` itself
forces the overpayment `monthlyLoanPayment - (principalPaid + interest)` to be
nonnegative, so the mid-month payoff correction never decreases the investment
balance, for arbitrary (even unreachable) states. -/
theorem c10_overpayment_nonneg (ip : SimInputs) (s : SimState)
    (hp : IsCents ip.monthly_loan_payment)
    (hbal : 0 < s.loan_balance) (hpaid : s.loan_paid_off = false)
    (hpay : s.loan_balance ≤ ip.monthly_loan_payment -
      quantizeHalfUp (s.loan_balance * (ip.loan_rate / 12))) :
    0 ≤ ip.monthly_loan_payment -
      (s.loan_balance + quantizeHalfUp (s.loan_balance * (ip.loan_rate / 12))) ∧
    (simStep ip s).investment_balance =
      s.investment_balance * (1 + ip.investment_rate / 12) +
        s.monthly_investment_payment +
        (ip.monthly_loan_payment -
          (s.loan_balance + quantizeHalfUp (s.loan_balance * (ip.loan_rate / 12)))) ∧
    s.investment_balance * (1 + ip.investment_rate / 12) +
        s.monthly_investment_payment ≤ (simStep ip s).investment_balance := by
  have hqP : qP ip = ip.monthly_loan_payment := hp
  have hover : 0 ≤ ip.monthly_loan_payment -
      (s.loan_balance + quantizeHalfUp (s.loan_balance * (ip.loan_rate / 12))) := by
    linarith
  have hstep := simStep_payoff ip s hbal hpaid (by rw [hqP]; exact hpay)
  rw [hstep]
  refine ⟨hover, by rw [hqP], ?_⟩
  simp only
  rw [hqP]
  linarith

/-- C10 witness: a month-1 payoff with a strictly positive overpayment. -/
theorem c10_overpayment_nonneg_witness :
    0 ≤ (⟨100, 0, 0, 200, 150, 1⟩ : SimInputs).monthly_loan_payment -
      ((initState ⟨100, 0, 0, 200, 150, 1⟩).loan_balance +
        quantizeHalfUp ((initState ⟨100, 0, 0, 200, 150, 1⟩).loan_balance *
          ((⟨100, 0, 0, 200, 150, 1⟩ : SimInputs).loan_rate / 12))) := by
  exact (c10_overpayment_nonneg ⟨100, 0, 0, 200, 150, 1⟩
    (initState ⟨100, 0, 0, 200, 150, 1⟩) (by decide) (by decide) (by decide)
    (by decide)).1

/-- C1: the simulation runs exactly `horizonYears * 12` months, and every
month follows the claimed order: investment growth then contribution (with the
pre/post-payoff contribution and no per-step rounding), then — only while the
balance is positive — half-up-rounded interest accumulation and either payoff
(principal = whole balance, overpayment diverted to the investment, balance
exactly `0`) or a balance decrease by `monthlyLoanPayment - interest`; finally
a record with the negated balance and `netWorth = investment - balance`. -/
theorem c1_month_loop (ip : SimInputs) (hB : IsCents ip.total_monthly_payment)
    (hp : IsCents ip.monthly_loan_payment) (hy : 1 ≤ ip.years) :
    (calculate_financials ip).df.length = ip.years * 12 ∧
    ∀ m, m < ip.years * 12 →
      C1StepClaim ip (stateAfter ip m) (stateAfter ip (m + 1)) ∧
      (calculate_financials ip).df[m]? = some (monthRecord ip (m + 1)) ∧
      monthRecord ip (m + 1) =
        { month := m + 1
          loan_balance_display := -(stateAfter ip (m + 1)).loan_balance
          investment_portfolio := (stateAfter ip (m + 1)).investment_balance
          net_worth := (stateAfter ip (m + 1)).investment_balance -
            (stateAfter ip (m + 1)).loan_balance } := by
  have hqB : qB ip = ip.total_monthly_payment := hB
  have hqP : qP ip = ip.monthly_loan_payment := hp
  refine ⟨by simp [calculate_financials], fun m hm => ?_⟩
  refine ⟨?_, ?_, rfl⟩
  · obtain ⟨h1, h2⟩ := simInv ip m
    rw [stateAfter_succ]
    by_cases hbal : 0 < (stateAfter ip m).loan_balance
    · have hpaid : (stateAfter ip m).loan_paid_off = false := by
        cases hpf : (stateAfter ip m).loan_paid_off with
        | false => rfl
        | true =>
          rw [h1 hpf] at hbal
          exact absurd hbal (by norm_num)
      rw [hpaid] at h2
      simp at h2
      by_cases hpay : (stateAfter ip m).loan_balance ≤
          ip.monthly_loan_payment -
            quantizeHalfUp ((stateAfter ip m).loan_balance * (ip.loan_rate / 12))
      · rw [simStep_payoff ip _ hbal hpaid (by rw [hqP]; exact hpay)]
        simp only [C1StepClaim, C1Contribution, hpaid, if_pos hbal, if_pos hpay]
        simp [h2, hqB, hqP]
      · rw [simStep_regular ip _ hbal hpaid (by rw [hqP]; exact hpay)]
        simp only [C1StepClaim, C1Contribution, hpaid, if_pos hbal, if_neg hpay]
        simp [h2, hqB, hqP]
    · rw [simStep_noloan ip _ hbal]
      simp only [C1StepClaim, C1Contribution, if_neg hbal]
      cases hpf : (stateAfter ip m).loan_paid_off with
      | false =>
        rw [hpf] at h2
        simp at h2
        simp [h2, hqB, hqP, hpf]
      | true =>
        rw [hpf] at h2
        simp at h2
        simp [h2, hqB, hqP, hpf]
  · have h : (calculate_financials ip).df[m]? =
        ((List.range (ip.years * 12)).map (fun j => monthRecord ip (j + 1)))[m]? := rfl
    rw [h]
    simp [List.getElem?_map, List.getElem?_range, hm]

/-- C1 witness: a small concrete run with cent-quantized inputs. -/
theorem c1_month_loop_witness :
    IsCents ((⟨1000, 1/10, 1/20, 200, 100, 1⟩ : SimInputs).total_monthly_payment) ∧
    IsCents ((⟨1000, 1/10, 1/20, 200, 100, 1⟩ : SimInputs).monthly_loan_payment) ∧
    1 ≤ (⟨1000, 1/10, 1/20, 200, 100, 1⟩ : SimInputs).years ∧
    (calculate_financials ⟨1000, 1/10, 1/20, 200, 100, 1⟩).df.length = 12 ∧
    C1StepClaim ⟨1000, 1/10, 1/20, 200, 100, 1⟩
      (stateAfter ⟨1000, 1/10, 1/20, 200, 100, 1⟩ 0)
      (stateAfter ⟨1000, 1/10, 1/20, 200, 100, 1⟩ 1) := by
  have h := c1_month_loop ⟨1000, 1/10, 1/20, 200, 100, 1⟩ (by decide) (by decide)
    (by decide)
  exact ⟨by decide, by decide, by decide, h.1, (h.2 0 (by decide)).1⟩

/-- C2 counterexample: with `annualRate = 0` and `years = 0` the code divides
by zero (modelled as `none`) instead of returning the loan amount unmodified —
the `years * 12 == 0` guard sits after the zero-rate branch and does not
protect it. -/
theorem c2_counterexample :
    calculate_minimum_loan_payment 1000 0 0 = none ∧
    calculate_minimum_loan_payment 1000 0 0 ≠ some 1000 := by
  refine ⟨by decide, by decide⟩

/-- C2 (amended): the zero-rate branch returns `loanAmount / (years*12)` only
when `years ≠ 0`; the degenerate `years = 0` return of `loanAmount` unmodified
happens only when `annualRate ≠ 0`; otherwise the amortization formula is
quantized to the nearest cent with round-half-up; and with both rate and years
zero the function divides by zero. -/
theorem c2_minimum_payment (loan_amount loan_rate : ℚ) (years : ℕ) :
    (loan_rate = 0 → years ≠ 0 →
      calculate_minimum_loan_payment loan_amount loan_rate years =
        some (loan_amount / ((years : ℚ) * 12))) ∧
    (loan_rate ≠ 0 → years = 0 →
      calculate_minimum_loan_payment loan_amount loan_rate years =
        some loan_amount) ∧
    (loan_rate ≠ 0 → years ≠ 0 →
      (1 + loan_rate / 12) ^ (years * 12) - 1 ≠ 0 →
      calculate_minimum_loan_payment loan_amount loan_rate years =
        some (quantizeHalfUp (loan_amount *
          ((loan_rate / 12) * (1 + loan_rate / 12) ^ (years * 12)) /
          ((1 + loan_rate / 12) ^ (years * 12) - 1)))) ∧
    (loan_rate = 0 → years = 0 →
      calculate_minimum_loan_payment loan_amount loan_rate years = none) := by
  refine ⟨fun h1 h2 => ?_, fun h1 h2 => ?_, fun h1 h2 h3 => ?_, fun h1 h2 => ?_⟩
  · unfold calculate_minimum_loan_payment
    rw [if_pos h1, if_neg (by omega)]
  · unfold calculate_minimum_loan_payment
    rw [if_neg h1]
    simp only
    rw [if_pos (by omega)]
  · unfold calculate_minimum_loan_payment
    rw [if_neg h1]
    simp only
    rw [if_neg (by omega), if_neg h3]
  · unfold calculate_minimum_loan_payment
    rw [if_pos h1, if_pos (by omega)]

/-- C2 witness: one instance of each reachable branch and of the
division-by-zero corner. -/
theorem c2_minimum_payment_witness :
    calculate_minimum_loan_payment 120000 0 10 = some 1000 ∧
    calculate_minimum_loan_payment 100 (1/10) 0 = some 100 ∧
    calculate_minimum_loan_payment 12000 (12/100) 1 =
      some (quantizeHalfUp (12000 * ((12/100/12) * (1 + 12/100/12) ^ (1 * 12)) /
        ((1 + 12/100/12) ^ (1 * 12) - 1))) ∧
    calculate_minimum_loan_payment 55 0 0 = none := by
  refine ⟨?_, ?_, ?_, ?_⟩
  · have h := (c2_minimum_payment 120000 0 10).1 rfl (by norm_num)
    rw [h]
    norm_num
  · exact (c2_minimum_payment 100 (1/10) 0).2.1 (by norm_num) rfl
  · exact (c2_minimum_payment 12000 (12/100) 1).2.2.1 (by norm_num) (by norm_num)
      (by decide)
  · exact (c2_minimum_payment 55 0 0).2.2.2 rfl rfl

set_option maxRecDepth 100000 in
/-- C7: the concrete scenario.  The minimum payment for a 500000 loan at 5.5%
over 30 years is exactly 2838.95, and simulating with that monthly loan
payment drives the balance to exactly `0.00` (payoff flag set) at month 360. -/
theorem c7_concrete_scenario :
    calculate_minimum_loan_payment 500000 (55/1000) 30 = some (283895/100) ∧
    (stateAfter ⟨500000, 55/1000, 8/100, 4000, 283895/100, 30⟩ 360).loan_balance = 0 ∧
    (stateAfter ⟨500000, 55/1000, 8/100, 4000, 283895/100, 30⟩ 360).loan_paid_off = true := by
  have hfull : loanIter ⟨500000, 55/1000, 8/100, 4000, 283895/100, 30⟩ 360
      ⟨qA ⟨500000, 55/1000, 8/100, 4000, 283895/100, 30⟩, false⟩ = ⟨0, true⟩ := by
    rw [show (360 : ℕ) = 120 + 120 + 120 by norm_num, loanIter_add, loanIter_add,
      show qA ⟨500000, 55/1000, 8/100, 4000, 283895/100, 30⟩ = 500000 from by decide]
    rw [show loanIter ⟨500000, 55/1000, 8/100, 4000, 283895/100, 30⟩ 120
        ⟨500000, false⟩ = ⟨10317603/25, false⟩ from by decide]
    rw [show loanIter ⟨500000, 55/1000, 8/100, 4000, 283895/100, 30⟩ 120
        ⟨10317603/25, false⟩ = ⟨6539708/25, false⟩ from by decide]
    decide
  obtain ⟨hb, hp⟩ :=
    stateAfter_loan_proj ⟨500000, 55/1000, 8/100, 4000, 283895/100, 30⟩ 360
  rw [hfull] at hb hp
  exact ⟨by decide, hb, hp⟩

/-! ### Optimizer sweep lemmas -/

theorem foldl_inv {α β : Type} (step : β → α → β) (P : List α → β → Prop)
    (hstep : ∀ done s c, P done s → P (done ++ [c]) (step s c)) :
    ∀ (l done : List α) (s : β), P done s → P (done ++ l) (l.foldl step s) := by
  intro l
  induction l with
  | nil =>
    intro done s h
    simpa using h
  | cons c t ih =>
    intro done s h
    have h2 := ih (done ++ [c]) (step s c) (hstep done s c h)
    simpa using h2

theorem candidateList_zero_step (start stop : ℚ) :
    candidateList start stop 0 = [] := by
  simp [candidateList, candidateCount]

theorem candidateList_mem_bounds (start stop step : ℚ) (hstep : 0 < step)
    (c : ℚ) (hc : c ∈ candidateList start stop step) :
    start ≤ c ∧ c < stop := by
  unfold candidateList at hc
  obtain ⟨k, hk, rfl⟩ := List.mem_map.mp hc
  rw [List.mem_range] at hk
  constructor
  · have hk0 : (0 : ℚ) ≤ (k : ℚ) * step :=
      mul_nonneg (by positivity) hstep.le
    linarith
  · have h1 : (k : ℤ) < ⌈(stop - start) / step⌉ := by
      exact_mod_cast Int.lt_toNat.mp hk
    have h2 : (k : ℚ) < (stop - start) / step := by
      exact_mod_cast Int.lt_ceil.mp h1
    have h3 : (k : ℚ) * step < stop - start := (lt_div_iff hstep).mp h2
    linarith

/-- Candidates of a step that is a natural multiple of `sf` are also
candidates of step `sf` itself (same start and stop). -/
theorem candidateList_nested (start stop sf : ℚ) (hsf : 0 < sf) (k : ℕ)
    (c : ℚ) (hc : c ∈ candidateList start stop ((k : ℚ) * sf)) :
    c ∈ candidateList start stop sf := by
  rcases Nat.eq_zero_or_pos k with hk0 | hk1
  · rw [hk0] at hc
    norm_num [candidateList_zero_step] at hc
  · have hks : 0 < (k : ℚ) * sf := by positivity
    obtain ⟨hlo, hhi⟩ := candidateList_mem_bounds start stop _ hks c hc
    unfold candidateList at hc
    obtain ⟨j, hj, rfl⟩ := List.mem_map.mp hc
    unfold candidateList
    apply List.mem_map.mpr
    refine ⟨j * k, ?_, by push_cast; ring⟩
    rw [List.mem_range]
    have hq : ((j * k : ℕ) : ℚ) * sf < stop - start := by
      push_cast
      calc (j : ℚ) * k * sf = j * ((k : ℚ) * sf) := by ring
      _ < stop - start := by linarith
    have h2 : ((j * k : ℕ) : ℚ) < (stop - start) / sf := (lt_div_iff hsf).mpr hq
    have h1 : ((j * k : ℕ) : ℤ) < ⌈(stop - start) / sf⌉ :=
      Int.lt_ceil.mpr (by exact_mod_cast h2)
    exact Int.lt_toNat.mpr (by exact_mod_cast h1)

theorem sweep_best_mono (A lr ir B : ℚ) (y : ℕ) (l : List ℚ) (s : OptState) :
    s.best_net_worth ≤ (l.foldl (sweepStep A lr ir B y) s).best_net_worth := by
  induction l generalizing s with
  | nil => exact le_refl _
  | cons c t ih =>
    refine le_trans ?_ (ih (sweepStep A lr ir B y s c))
    simp only [sweepStep]
    split_ifs with h
    · exact le_of_lt h
    · exact le_refl _

/-- After the sweep has processed a candidate, the best net worth dominates
that candidate's net worth. -/
theorem sweep_le_best (A lr ir B : ℚ) (y : ℕ) (l : List ℚ) (s : OptState)
    (c : ℚ) (hc : c ∈ l) :
    (netAt A lr ir B y c : WithBot ℚ) ≤
      (l.foldl (sweepStep A lr ir B y) s).best_net_worth := by
  induction l generalizing s with
  | nil => cases hc
  | cons d t ih =>
    rcases List.mem_cons.mp hc with rfl | hct
    · refine le_trans ?_ (sweep_best_mono A lr ir B y t (sweepStep A lr ir B y s c))
      simp only [sweepStep]
      split_ifs with h
      · exact le_refl _
      · exact le_of_not_lt h
    · exact ih _ hct

/-- Full characterization of the optimizer sweep: either there are no
candidates and the initial state (seeded with the minimum payment and
`-np.inf`) is returned unchanged, or the returned allocation is the first
candidate attaining the greatest simulated final net worth. -/
theorem runSweep_spec (A lr ir B : ℚ) (y : ℕ) (step minp : ℚ) :
    (candidateList minp (B + 1) step = [] ∧
      runSweep A lr ir B y step minp = ⟨⊥, minp⟩) ∨
    (∃ l1 l2, candidateList minp (B + 1) step =
        l1 ++ (runSweep A lr ir B y step minp).sweet_spot_allocation :: l2 ∧
      (runSweep A lr ir B y step minp).best_net_worth =
        (netAt A lr ir B y
          (runSweep A lr ir B y step minp).sweet_spot_allocation : WithBot ℚ) ∧
      (∀ c ∈ l1, netAt A lr ir B y c <
        netAt A lr ir B y (runSweep A lr ir B y step minp).sweet_spot_allocation) ∧
      (∀ c ∈ l2, netAt A lr ir B y c ≤
        netAt A lr ir B y (runSweep A lr ir B y step minp).sweet_spot_allocation)) := by
  have main := foldl_inv (sweepStep A lr ir B y)
    (fun done s =>
      (done = [] ∧ s = ⟨⊥, minp⟩) ∨
      (∃ l1 l2, done = l1 ++ s.sweet_spot_allocation :: l2 ∧
        s.best_net_worth = (netAt A lr ir B y s.sweet_spot_allocation : WithBot ℚ) ∧
        (∀ c ∈ l1, netAt A lr ir B y c < netAt A lr ir B y s.sweet_spot_allocation) ∧
        (∀ c ∈ l2, netAt A lr ir B y c ≤ netAt A lr ir B y s.sweet_spot_allocation)))
    ?_ (candidateList minp (B + 1) step) [] ⟨⊥, minp⟩ (Or.inl ⟨rfl, rfl⟩)
  · simpa [runSweep] using main
  · rintro done s c (⟨rfl, rfl⟩ | ⟨l1, l2, rfl, hbest, hl1, hl2⟩)
    · right
      simp only [sweepStep]
      rw [if_pos (by simp [WithBot.bot_lt_coe])]
      exact ⟨[], [], by simp, by simp, by simp, by simp⟩
    · simp only [sweepStep]
      split_ifs with h
      · right
        rw [hbest] at h
        have hlt : netAt A lr ir B y s.sweet_spot_allocation < netAt A lr ir B y c :=
          WithBot.coe_lt_coe.mp h
        refine ⟨l1 ++ s.sweet_spot_allocation :: l2, [], by simp, by simp, ?_, by simp⟩
        intro x hx
        simp only [List.mem_append, List.mem_cons] at hx
        rcases hx with hx1 | rfl | hx2
        · exact lt_trans (hl1 x hx1) hlt
        · exact hlt
        · exact lt_of_le_of_lt (hl2 x hx2) hlt
      · right
        rw [hbest] at h
        have hle : netAt A lr ir B y c ≤ netAt A lr ir B y s.sweet_spot_allocation :=
          WithBot.coe_le_coe.mp (le_of_not_lt h)
        refine ⟨l1, l2 ++ [c], by simp, hbest, hl1, ?_⟩
        intro x hx
        simp only [List.mem_append, List.mem_singleton] at hx
        rcases hx with hx1 | rfl
        · exact hl2 x hx1
        · exact hle

/-- C3 counterexample: with loanAmount 120000, zero rate and one year the
minimum payment is 10000, above the budget 4000; `np.arange(10000, 4001, 50)`
is empty, so the optimizer returns the seed allocation 10000 (with
`best_net_worth` still `-inf`), which does not lie in `[10000, 4000]`. -/
theorem c3_counterexample :
    calculate_minimum_loan_payment 120000 0 1 = some 10000 ∧
    findOptimalAllocation 120000 0 0 4000 1 50 =
      some ⟨⊥, 10000⟩ ∧
    ¬ (10000 : ℚ) ≤ 4000 := by
  refine ⟨by decide, by decide, by norm_num⟩

/-- C3 (amended): the optimizer enumerates `minPayment + k·step` over the
half-open range `[minPayment, totalMonthlyBudget + 1)` — which may include a
value above the budget — and returns the first candidate attaining the
greatest simulated `final_net_worth` (strict comparison, earliest wins ties);
the returned payment is always `≥ minPayment` and `< budget + 1` when any
candidate exists, and is the seed `minPayment` itself when the range is
empty. -/
theorem c3_optimizer (A lr ir B : ℚ) (y : ℕ) (step minp : ℚ)
    (hstep : 0 < step)
    (hmin : calculate_minimum_loan_payment A lr y = some minp) :
    findOptimalAllocation A lr ir B y step =
      some (runSweep A lr ir B y step minp) ∧
    (∀ c ∈ candidateList minp (B + 1) step, minp ≤ c ∧ c < B + 1) ∧
    minp ≤ (runSweep A lr ir B y step minp).sweet_spot_allocation ∧
    (candidateList minp (B + 1) step = [] →
      runSweep A lr ir B y step minp = ⟨⊥, minp⟩) ∧
    (candidateList minp (B + 1) step ≠ [] →
      (runSweep A lr ir B y step minp).sweet_spot_allocation ∈
        candidateList minp (B + 1) step ∧
      (runSweep A lr ir B y step minp).sweet_spot_allocation < B + 1 ∧
      (runSweep A lr ir B y step minp).best_net_worth =
        (netAt A lr ir B y
          (runSweep A lr ir B y step minp).sweet_spot_allocation : WithBot ℚ) ∧
      FirstArgmax (netAt A lr ir B y) (candidateList minp (B + 1) step)
        (runSweep A lr ir B y step minp).sweet_spot_allocation) := by
  have hbounds := fun c hc => candidateList_mem_bounds minp (B + 1) step hstep c hc
  have hfind : findOptimalAllocation A lr ir B y step =
      some (runSweep A lr ir B y step minp) := by
    unfold findOptimalAllocation
    rw [hmin]
    rfl
  rcases runSweep_spec A lr ir B y step minp with ⟨hemp, hres⟩ |
    ⟨l1, l2, hsplit, hbest, hl1, hl2⟩
  · refine ⟨hfind, hbounds, ?_, fun _ => hres, fun hne => absurd hemp hne⟩
    rw [hres]
  · have hmem : (runSweep A lr ir B y step minp).sweet_spot_allocation ∈
        candidateList minp (B + 1) step := by
      rw [hsplit]
      simp
    refine ⟨hfind, hbounds, (hbounds _ hmem).1, ?_, fun _ => ?_⟩
    · intro hemp
      rw [hemp] at hsplit
      exact absurd hsplit.symm (by simp)
    · exact ⟨hmem, (hbounds _ hmem).2, hbest, l1, l2, hsplit, hl1, hl2⟩

/-- C3 witness: loan 1200 at rate 0 over one year (minimum payment 100),
budget 200, step 50; the sweep is `[100, 150, 200]` and 100 is returned. -/
theorem c3_optimizer_witness :
    calculate_minimum_loan_payment 1200 0 1 = some 100 ∧
    (0 : ℚ) < 50 ∧
    findOptimalAllocation 1200 0 0 200 1 50 =
      some (runSweep 1200 0 0 200 1 50 100) ∧
    (100 : ℚ) ≤ (runSweep 1200 0 0 200 1 50 100).sweet_spot_allocation := by
  have h := c3_optimizer 1200 0 0 200 1 50 100 (by norm_num) (by decide)
  exact ⟨by decide, by norm_num, h.1, h.2.2.1⟩

set_option maxRecDepth 40000 in
/-- C8 counterexample: loan 12000 at 12% over one year (minimum payment
1066.19), zero investment rate, budget 1115.69.  With step 50 the sweep is
`[1066.19, 1116.19]` and reports best net worth 628.19; with the finer step 30
the sweep is `[1066.19, 1096.19]` and reports only 614.53 — a finer step
yields a strictly smaller reported final net worth. -/
theorem c8_counterexample :
    (30 : ℚ) < 50 ∧
    findOptimalAllocation 12000 (12/100) 0 (111569/100) 1 50 =
      some ⟨((62819 : ℚ)/100 : ℚ), 111619/100⟩ ∧
    findOptimalAllocation 12000 (12/100) 0 (111569/100) 1 30 =
      some ⟨((61453 : ℚ)/100 : ℚ), 109619/100⟩ ∧
    (↑((61453 : ℚ)/100) : WithBot ℚ) < (↑((62819 : ℚ)/100) : WithBot ℚ) := by
  refine ⟨by norm_num, by decide, by decide, ?_⟩
  rw [WithBot.coe_lt_coe]
  norm_num

/-- C8 (amended): when the finer step divides the coarser one (so the coarse
candidate grid is a subset of the fine one), re-running the optimizer with the
finer step never decreases the reported best net worth. -/
theorem c8_finer_step (A lr ir B : ℚ) (y : ℕ) (sf sc : ℚ) (k : ℕ)
    (hsf : 0 < sf) (hk : sc = (k : ℚ) * sf) (rc rf : OptState)
    (hc : findOptimalAllocation A lr ir B y sc = some rc)
    (hf : findOptimalAllocation A lr ir B y sf = some rf) :
    rc.best_net_worth ≤ rf.best_net_worth := by
  unfold findOptimalAllocation at hc hf
  cases hmin : calculate_minimum_loan_payment A lr y with
  | none =>
    rw [hmin] at hc
    cases hc
  | some minp =>
    rw [hmin] at hc hf
    simp only [Option.map_some', Option.some.injEq] at hc hf
    rcases runSweep_spec A lr ir B y sc minp with ⟨-, hres⟩ |
      ⟨l1, l2, hsplit, hbest, -, -⟩
    · rw [← hc, hres]
      exact bot_le
    · have hmemc : (runSweep A lr ir B y sc minp).sweet_spot_allocation ∈
          candidateList minp (B + 1) sc := by
        rw [hsplit]
        simp
      have hmemf : (runSweep A lr ir B y sc minp).sweet_spot_allocation ∈
          candidateList minp (B + 1) sf := by
        apply candidateList_nested minp (B + 1) sf hsf k
        rw [← hk]
        exact hmemc
      have hle := sweep_le_best A lr ir B y (candidateList minp (B + 1) sf)
        ⟨⊥, minp⟩ _ hmemf
      rw [← hc, ← hf]
      rw [hbest]
      exact hle

set_option maxRecDepth 40000 in
/-- C8 witness: steps 50 and 25 on a small zero-rate instance (all candidates
tie at net worth 1200, so both sweeps return it). -/
theorem c8_finer_step_witness :
    (0 : ℚ) < 25 ∧ (50 : ℚ) = ((2 : ℕ) : ℚ) * 25 ∧
    findOptimalAllocation 1200 0 0 200 1 50 = some ⟨((1200 : ℚ) : ℚ), 100⟩ ∧
    findOptimalAllocation 1200 0 0 200 1 25 = some ⟨((1200 : ℚ) : ℚ), 100⟩ ∧
    (⟨((1200 : ℚ) : ℚ), 100⟩ : OptState).best_net_worth ≤
      (⟨((1200 : ℚ) : ℚ), 100⟩ : OptState).best_net_worth := by
  have h1 : findOptimalAllocation 1200 0 0 200 1 50 =
      some ⟨((1200 : ℚ) : ℚ), 100⟩ := by decide
  have h2 : findOptimalAllocation 1200 0 0 200 1 25 =
      some ⟨((1200 : ℚ) : ℚ), 100⟩ := by decide
  refine ⟨by norm_num, by push_cast; norm_num, h1, h2, ?_⟩
  exact c8_finer_step 1200 0 0 200 1 25 50 2 (by norm_num) (by push_cast; norm_num)
    _ _ h1 h2

/-! ### Zero-loan-rate closed form -/

theorem quantizeHalfUp_zero : quantizeHalfUp 0 = 0 := by decide

theorem geomSum_gt (g : ℚ) (hg : 0 < g) (n : ℕ) (hn : 2 ≤ n) :
    (n : ℚ) < geomSum g n := by
  induction n, hn using Nat.le_induction with
  | base =>
    norm_num [geomSum]
    linarith
  | succ n hn ih =>
    have h2 : (2 : ℚ) ≤ (n : ℚ) := by exact_mod_cast hn
    have hpos : (0 : ℚ) < geomSum g n := by linarith
    have hgS : (0 : ℚ) < g * geomSum g n := mul_pos hg hpos
    have e : geomSum g (n + 1) = 1 + (1 + g) * geomSum g n := rfl
    have expand : (1 + g) * geomSum g n = geomSum g n + g * geomSum g n := by ring
    push_cast
    rw [e, expand]
    linarith

/-- With a zero loan rate and a payment too small to clear the loan within the
horizon, every month is a regular amortization month and the state has a
closed form. -/
theorem zeroRate_state (ip : SimInputs) (hlr : ip.loan_rate = 0)
    (hp0 : 0 ≤ qP ip)
    (hno : ((ip.years * 12 : ℕ) : ℚ) * qP ip < qA ip) :
    ∀ m, m ≤ ip.years * 12 →
      stateAfter ip m =
        { loan_balance := qA ip - (m : ℚ) * qP ip
          investment_balance :=
            (qB ip - qP ip) * geomSum (ip.investment_rate / 12) m
          monthly_investment_payment := qB ip - qP ip
          total_interest_paid := 0
          total_principal_paid := (m : ℚ) * qP ip
          total_invested := (m : ℚ) * (qB ip - qP ip)
          loan_paid_off := false } := by
  intro m
  induction m with
  | zero =>
    intro _
    simp [stateAfter, initState, geomSum]
  | succ m ih =>
    intro hm1
    have hm : m ≤ ip.years * 12 := by omega
    have ihm := ih hm
    have hmq : ((m : ℕ) : ℚ) * qP ip ≤ ((ip.years * 12 : ℕ) : ℚ) * qP ip := by
      apply mul_le_mul_of_nonneg_right _ hp0
      exact_mod_cast hm
    have hm1q : ((m + 1 : ℕ) : ℚ) * qP ip ≤ ((ip.years * 12 : ℕ) : ℚ) * qP ip := by
      apply mul_le_mul_of_nonneg_right _ hp0
      exact_mod_cast hm1
    have hbal : 0 < (stateAfter ip m).loan_balance := by
      rw [ihm]
      simp only
      linarith
    have hpaid : (stateAfter ip m).loan_paid_off = false := by rw [ihm]
    have hint : quantizeHalfUp ((stateAfter ip m).loan_balance *
        (ip.loan_rate / 12)) = 0 := by
      rw [hlr]
      norm_num [quantizeHalfUp_zero]
    have hpay : ¬ ((stateAfter ip m).loan_balance ≤
        qP ip - quantizeHalfUp ((stateAfter ip m).loan_balance *
          (ip.loan_rate / 12))) := by
      rw [hint, ihm]
      simp only [sub_zero, not_le]
      have hno' := hno
      push_cast at hm1q hno'
      linarith
    rw [stateAfter_succ, simStep_regular ip _ hbal hpaid hpay, hint, ihm]
    dsimp only
    rw [SimState.mk.injEq]
    refine ⟨?_, ?_, ?_, ?_, ?_, ?_, ?_⟩ <;> first
      | rfl
      | (push_cast [geomSum]; ring)

set_option maxRecDepth 40000 in
/-- C6 counterexample: with loanAmount 100 and both payments clearing the loan
in month 1, the two runs coincide from month 1 on and the investment gains are
exactly equal — not strictly smaller for the larger payment. -/
theorem c6_counterexample :
    (100 : ℚ) < 200 ∧
    ¬ ((calculate_financials ⟨100, 0, 12/100, 1000, 200, 1⟩).investment_gains <
      (calculate_financials ⟨100, 0, 12/100, 1000, 100, 1⟩).investment_gains) := by
  refine ⟨by norm_num, by decide⟩

/-- C6 (amended): with zero loan rate, positive investment rate, fixed budget
and horizon, and two cent-quantized payments `p1 < p2` neither of which pays
the loan off within the horizon (`months * p2 < loanAmount`), the larger
payment yields strictly smaller investment gains. -/
theorem c6_gains_monotonic (A B p1 p2 ir : ℚ) (y : ℕ)
    (hA : IsCents A) (h1 : IsCents p1) (h2 : IsCents p2)
    (hp0 : 0 ≤ p1) (h12 : p1 < p2) (hir : 0 < ir) (hy : 1 ≤ y)
    (hno : ((y * 12 : ℕ) : ℚ) * p2 < A) :
    (calculate_financials ⟨A, 0, ir, B, p2, y⟩).investment_gains <
      (calculate_financials ⟨A, 0, ir, B, p1, y⟩).investment_gains := by
  have hq1 : qP ⟨A, 0, ir, B, p1, y⟩ = p1 := h1
  have hq2 : qP ⟨A, 0, ir, B, p2, y⟩ = p2 := h2
  have hqA1 : qA ⟨A, 0, ir, B, p1, y⟩ = A := hA
  have hqA2 : qA ⟨A, 0, ir, B, p2, y⟩ = A := hA
  have hno1 : ((y * 12 : ℕ) : ℚ) * p1 < A := by
    have hmono : ((y * 12 : ℕ) : ℚ) * p1 ≤ ((y * 12 : ℕ) : ℚ) * p2 :=
      mul_le_mul_of_nonneg_left h12.le (by positivity)
    linarith
  have e1 := zeroRate_state ⟨A, 0, ir, B, p1, y⟩ rfl
    (by rw [hq1]; exact hp0) (by rw [hq1, hqA1]; exact hno1) (y * 12) le_rfl
  have e2 := zeroRate_state ⟨A, 0, ir, B, p2, y⟩ rfl
    (by rw [hq2]; linarith) (by rw [hq2, hqA2]; exact hno) (y * 12) le_rfl
  have hn2 : 2 ≤ y * 12 := by omega
  have hS := geomSum_gt (ir / 12) (by positivity) (y * 12) hn2
  show (stateAfter ⟨A, 0, ir, B, p2, y⟩ (y * 12)).investment_balance -
      (stateAfter ⟨A, 0, ir, B, p2, y⟩ (y * 12)).total_invested <
    (stateAfter ⟨A, 0, ir, B, p1, y⟩ (y * 12)).investment_balance -
      (stateAfter ⟨A, 0, ir, B, p1, y⟩ (y * 12)).total_invested
  rw [e1, e2]
  simp only
  rw [hq1, hq2, show qB ⟨A, 0, ir, B, p2, y⟩ = qB ⟨A, 0, ir, B, p1, y⟩ from rfl]
  have key : 0 < (p2 - p1) *
      (geomSum (ir / 12) (y * 12) - ((y * 12 : ℕ) : ℚ)) :=
    mul_pos (by linarith) (by linarith)
  nlinarith [key]

set_option maxRecDepth 40000 in
/-- C6 witness: loan 100000 at rate 0, payments 10 < 20, one-year horizon. -/
theorem c6_gains_monotonic_witness :
    (0 : ℚ) ≤ 10 ∧ (10 : ℚ) < 20 ∧ (0 : ℚ) < 1 ∧
    ((1 * 12 : ℕ) : ℚ) * 20 < 100000 ∧
    (calculate_financials ⟨100000, 0, 1, 50, 20, 1⟩).investment_gains <
      (calculate_financials ⟨100000, 0, 1, 50, 10, 1⟩).investment_gains := by
  refine ⟨by norm_num, by norm_num, by norm_num, by norm_num, ?_⟩
  exact c6_gains_monotonic 100000 50 10 20 1 1 (by decide) (by decide) (by decide)
    (by norm_num) (by norm_num) (by norm_num) (by norm_num) (by norm_num)

